import Mathlib

/-!
Verification development for the hekametrics exporter
(src/hekalogger.go).  The Go code is shallowly embedded: the network and
clock are modelled as outcome oracles (`Nat → Bool` giving the result of
the i-th connect / transmit attempt, and a list of select outcomes for
the flush loop), machine integers as `Int`, float64 values as `Rat`
(the encoder only copies them, it never computes with them), and the
external metrics-registry snapshots as records whose accessors are
plain fields (the quantile accessor is an arbitrary function, as the
library is an external collaborator).
-/

namespace Hekametrics

/-! ## Resilient sender: `HekaClient.write` (src/hekalogger.go:90-129) -/

inductive WriteError where
  | connectFailed
  | sendFailed
deriving DecidableEq, Repr

/-- Result of one `write` call: the returned error (`none` = success),
whether `hc.sender` is non-nil afterwards (`connected`), and how many
connection-establishment and transmit attempts were issued. -/
structure WriteResult where
  err : Option WriteError
  connected : Bool
  connectAttempts : Nat
  transmitAttempts : Nat
deriving DecidableEq, Repr

/-- The tail of `HekaClient.write` once a live sender exists: the first
`SendMessage` call, and on failure the single `reconnect`-and-resend
retry.  `c` is the number of connect attempts already issued (0 or 1),
so `connectOk c` is the outcome of the next `reconnect`.  Mirrors
src/hekalogger.go:110-127: note that when the retried `SendMessage`
also fails the code returns with `hc.sender` still set, so `connected`
is `true` in that branch. -/
def writeTransmit (connectOk transmitOk : Nat → Bool) (c : Nat) : WriteResult :=
  if transmitOk 0 then
    { err := none, connected := true, connectAttempts := c, transmitAttempts := 1 }
  else if connectOk c then
    if transmitOk 1 then
      { err := none, connected := true, connectAttempts := c + 1, transmitAttempts := 2 }
    else
      { err := some .sendFailed, connected := true, connectAttempts := c + 1,
        transmitAttempts := 2 }
  else
    { err := some .connectFailed, connected := false, connectAttempts := c + 1,
      transmitAttempts := 1 }

/-- Embedding of `HekaClient.write` (src/hekalogger.go:90-129).
`connected0` is whether `hc.sender` is non-nil on entry (`true` =
Connected).  `connectOk i` / `transmitOk i` are the outcomes of the
i-th `client.NewNetworkSender` / `sender.SendMessage` call inside this
`write` invocation.  `reconnect` first closes and nils out any existing
sender (close errors ignored), then dials; on dial failure it leaves
`hc.sender = nil`. -/
def write (connectOk transmitOk : Nat → Bool) (connected0 : Bool) : WriteResult :=
  if connected0 then
    writeTransmit connectOk transmitOk 0
  else if connectOk 0 then
    writeTransmit connectOk transmitOk 1
  else
    { err := some .connectFailed, connected := false, connectAttempts := 1,
      transmitAttempts := 0 }

/-! ## Client construction: `NewHekaClient` (src/hekalogger.go:68-88) -/

/-- The `HekaClient` state the claims depend on: the configured scheme
and host (from the parsed connect URL), the caller-supplied message
type, whether `hc.sender` is non-nil, and whether the `stop` channel
has been closed.  At construction `sender` is nil and `stop` is a
freshly made (open) channel. -/
structure HekaClient where
  scheme : String
  host : String
  msgtype : String
  connected : Bool
  stopClosed : Bool
deriving DecidableEq, Repr

/-- Embedding of `NewHekaClient` (src/hekalogger.go:73-88) after
`url.ParseRequestURI` has split the connect string into scheme and
host (URL parsing is the standard library, an external collaborator).
The switch admits exactly the schemes tcp and udp; anything else
returns a configuration error.  Construction never dials: no connect
oracle is consulted here (connections are attempted only inside
`write`), and the returned client has `connected = false` and an open
stop channel. -/
def NewHekaClient (scheme host msgtype : String) : Except String HekaClient :=
  if scheme = "tcp" ∨ scheme = "udp" then
    .ok { scheme := scheme, host := host, msgtype := msgtype,
          connected := false, stopClosed := false }
  else
    .error ("scheme: " ++ scheme ++ " not supported, try tcp://<host>:<port> or udp://<host>:<port>")

/-! ## Stop: `HekaClient.Stop` (src/hekalogger.go:132-134) -/

inductive StopOutcome where
  | normal (hc : HekaClient)
  | panicked
deriving DecidableEq, Repr

/-- Embedding of `HekaClient.Stop`, which is `close(hc.stop)`.  Go
channel semantics: closing an open channel marks it closed (waking any
receiver); closing an already-closed channel panics. -/
def Stop (hc : HekaClient) : StopOutcome :=
  if hc.stopClosed then .panicked
  else .normal { hc with stopClosed := true }

/-! ## Flush loop: `HekaClient.LogHeka` (src/hekalogger.go:149-173)

The loop's `select` waits on the stop channel and on the interval
timer; a run of the loop is driven by the list of select outcomes, one
per iteration.  Crucially, in the source the flush body (make_message,
EncodeMessageStream, write) sits after the `select` inside the loop
body, so it executes on every iteration, including the one in which the
stop signal was received; only then does `for running` exit. -/

inductive LoopEvent where
  | stopSignal
  | tick
deriving DecidableEq, Repr

/-- What one iteration of the flush body did: the outcome of
`EncodeMessageStream` for this cycle, and whether `hc.write` was
called.  In the source `hc.write(stream)` is called unconditionally
after the encode step — an encode error is only logged
(src/hekalogger.go:164-171), so `sendAttempted` is always `true`;
on an encode error the `stream` buffer still holds the previous
cycle's bytes (it is declared outside the loop). -/
structure CycleLog where
  encodeOk : Bool
  sendAttempted : Bool
deriving DecidableEq, Repr

/-- Embedding of the `for running` loop of `LogHeka`: `events` is the
sequence of select outcomes, `encOk k` the outcome of the k-th cycle's
encode step, `k` the index of the current cycle.  Each event is
followed by one full flush body; a `stopSignal` event sets
`running = false` so the loop exits after that cycle's flush.  An empty
`events` list describes a partial run (the loop itself never exits
without a stop). -/
def logHekaCycles (encOk : Nat → Bool) : List LoopEvent → Nat → List CycleLog
  | [], _ => []
  | e :: es, k =>
    let cycle : CycleLog := { encodeOk := encOk k, sendAttempted := true }
    match e with
    | .stopSignal => [cycle]
    | .tick => cycle :: logHekaCycles encOk es (k + 1)

/-! ## Snapshot encoder: `make_message` (src/hekalogger.go:177-261)

Numeric field values are int64 or float64 in the message; int64 is
embedded as `Int` and float64 as `Rat` — the encoder never computes
with the values, it only copies them out of the snapshots, so the
carrier type of the float values is irrelevant and `Rat` keeps
everything decidable.  The go-metrics snapshots are external
collaborators; they are embedded as records of their accessors, with
the quantile accessor `percentiles` an arbitrary function
`List Rat → List Rat` (the library returns one value per requested
percentile, which claims state as a hypothesis where needed). -/

inductive FieldValue where
  | i (v : Int)
  | f (v : Rat)
deriving DecidableEq, Repr

/-- One named numeric field of the outbound Heka message. -/
structure Field where
  name : String
  value : FieldValue
deriving DecidableEq, Repr

/-- Accessors of `metrics.Histogram.Snapshot()` used by `make_message`. -/
structure HistogramSnapshot where
  count : Int
  min : Int
  max : Int
  mean : Rat
  stdDev : Rat
  percentiles : List Rat → List Rat

/-- Accessors of `metrics.Meter.Snapshot()` used by `make_message`. -/
structure MeterSnapshot where
  count : Int
  rate1 : Rat
  rate5 : Rat
  rate15 : Rat
  rateMean : Rat
deriving DecidableEq, Repr

/-- Accessors of `metrics.Timer.Snapshot()` used by `make_message`. -/
structure TimerSnapshot where
  count : Int
  min : Int
  max : Int
  mean : Rat
  stdDev : Rat
  rate1 : Rat
  rate5 : Rat
  rate15 : Rat
  rateMean : Rat
  percentiles : List Rat → List Rat

/-- The closed set of metric kinds dispatched over by the type switch
in the `r.Each` callback (src/hekalogger.go:202-259). -/
inductive Metric where
  | counter (count : Int)
  | gauge (value : Int)
  | gaugeFloat64 (value : Rat)
  | histogram (s : HistogramSnapshot)
  | meter (s : MeterSnapshot)
  | timer (s : TimerSnapshot)

/-- The fixed percentile request `[]float64{0.5, 0.75, 0.95, 0.99, 0.999}`
passed to `Snapshot.Percentiles` for Histograms and Timers. -/
def canonicalPercentiles : List Rat := [0.5, 0.75, 0.95, 0.99, 0.999]

def histogramFloatNames : List String :=
  ["50-percentile", "75-percentile", "95-percentile", "99-percentile",
   "999-percentile", "mean", "std-dev"]

def timerFloatNames : List String :=
  ["50-percentile", "75-percentile", "95-percentile", "99-percentile",
   "999-percentile", "mean", "std-dev", "one-minute", "five-minute",
   "fifteen-minute", "mean-rate"]

def meterFloatNames : List String :=
  ["one-minute", "five-minute", "fifteen-minute", "mean"]

/-- The loop body of the `add_float_mapping` closure
(src/hekalogger.go:180-198): `i` indexes `names`; a name whose index
has no value in `vals` is skipped (only logged); otherwise the field
`pref.name ↦ vals[i]` is added (`message.NewField` cannot fail on a
float64 value, so the error branch of the source is unreachable
here). -/
def add_float_mapping_from (pref : String) (vals : List Rat) : Nat → List String → List Field
  | _, [] => []
  | i, n :: ns =>
    if i + 1 > vals.length then
      add_float_mapping_from pref vals (i + 1) ns
    else
      { name := pref ++ "." ++ n, value := .f (vals.getD i 0) } ::
        add_float_mapping_from pref vals (i + 1) ns

/-- `add_float_mapping` of `make_message` (src/hekalogger.go:180-198). -/
def add_float_mapping (pref : String) (names : List String) (vals : List Rat) : List Field :=
  add_float_mapping_from pref vals 0 names

/-- The fields the `r.Each` callback of `make_message` adds for one
registry entry `(name, metric)` (src/hekalogger.go:200-259).
`message.NewInt64Field` / `message.NewField` always succeed on int64 /
float64 values, so every constructed field is appended to the message. -/
def metricFields (name : String) (m : Metric) : List Field :=
  match m with
  | .counter c => [{ name := name, value := .i c }]
  | .gauge v => [{ name := name, value := .i v }]
  | .gaugeFloat64 v => [{ name := name, value := .f v }]
  | .histogram h =>
      add_float_mapping (name ++ ".histogram") histogramFloatNames
        (h.percentiles canonicalPercentiles ++ [h.mean, h.stdDev]) ++
      (["count", "min", "max"].zip [h.count, h.min, h.max]).map
        (fun p => { name := name ++ ".histogram." ++ p.1, value := .i p.2 })
  | .meter mt =>
      { name := name ++ ".count", value := .i mt.count } ::
      add_float_mapping name meterFloatNames [mt.rate1, mt.rate5, mt.rate15, mt.rateMean]
  | .timer t =>
      add_float_mapping (name ++ ".timer") timerFloatNames
        (t.percentiles canonicalPercentiles ++
          [t.mean, t.stdDev, t.rate1, t.rate5, t.rate15, t.rateMean]) ++
      (["count", "min", "max"].zip [t.count, t.min, t.max]).map
        (fun p => { name := name ++ ".timer." ++ p.1, value := .i p.2 })

/-- Embedding of `make_message` (src/hekalogger.go:177-261): the
registry is an association list of named metrics, `r.Each` visits the
entries in order, and each entry's fields are appended to the message. -/
def make_message (r : List (String × Metric)) : List Field :=
  r.flatMap (fun p => metricFields p.1 p.2)

/-! ### Canonical field-name suffixes, per metric kind

For the field-name uniqueness claim: every field `make_message` emits
for a registry entry `(name, metric)` is named `name ++ s` for a suffix
`s` in the kind's canonical suffix list (quantile fields can be skipped
when a snapshot returns fewer values than names, so the emitted names
are in general a sublist). -/

def histFloatSuffixes : List String :=
  [".histogram.50-percentile", ".histogram.75-percentile", ".histogram.95-percentile",
   ".histogram.99-percentile", ".histogram.999-percentile", ".histogram.mean",
   ".histogram.std-dev"]

def histIntSuffixes : List String :=
  [".histogram.count", ".histogram.min", ".histogram.max"]

def timerFloatSuffixes : List String :=
  [".timer.50-percentile", ".timer.75-percentile", ".timer.95-percentile",
   ".timer.99-percentile", ".timer.999-percentile", ".timer.mean", ".timer.std-dev",
   ".timer.one-minute", ".timer.five-minute", ".timer.fifteen-minute", ".timer.mean-rate"]

def timerIntSuffixes : List String :=
  [".timer.count", ".timer.min", ".timer.max"]

def meterSuffixes : List String :=
  [".count", ".one-minute", ".five-minute", ".fifteen-minute", ".mean"]

def metricSuffixes : Metric → List String
  | .counter _ => [""]
  | .gauge _ => [""]
  | .gaugeFloat64 _ => [""]
  | .histogram _ => histFloatSuffixes ++ histIntSuffixes
  | .meter _ => meterSuffixes
  | .timer _ => timerFloatSuffixes ++ timerIntSuffixes

end Hekametrics

namespace Hekametrics

/-! ## Helper lemmas about `add_float_mapping` -/

/-- The skip-guarded loop is index-for-index zipping: names beyond the
end of `vals` contribute nothing, every name with a value is paired
with the value at its own index. -/
theorem add_float_mapping_from_eq_zip (pref : String) (vals : List Rat)
    (i : Nat) (names : List String) :
    add_float_mapping_from pref vals i names =
      (names.zip (vals.drop i)).map
        (fun p => { name := pref ++ "." ++ p.1, value := FieldValue.f p.2 }) := by
  induction names generalizing i with
  | nil => rfl
  | cons n ns ih =>
    by_cases h : i + 1 > vals.length
    · have hd : vals.drop i = [] := List.drop_eq_nil_of_le (by omega)
      have hd1 : vals.drop (i + 1) = [] := List.drop_eq_nil_of_le (by omega)
      simp only [add_float_mapping_from, if_pos h, ih, hd, hd1, List.zip_nil_right,
        List.map_nil]
    · have hlt : i < vals.length := by omega
      have hd : vals.drop i = vals[i] :: vals.drop (i + 1) :=
        List.drop_eq_getElem_cons hlt
      simp only [add_float_mapping_from, if_neg h, ih, hd, List.zip_cons_cons,
        List.map_cons, List.getD_eq_getElem vals 0 hlt]

theorem add_float_mapping_eq_zip (pref : String) (names : List String) (vals : List Rat) :
    add_float_mapping pref names vals =
      (names.zip vals).map
        (fun p => { name := pref ++ "." ++ p.1, value := FieldValue.f p.2 }) := by
  simpa using add_float_mapping_from_eq_zip pref vals 0 names

/-! ## Claims about the sender -/

/-- C1, as stated by the spec, is false on the code: starting
Disconnected with both connects succeeding and both transmits failing,
`write` returns the send failure but leaves `hc.sender` set to the
freshly dialled connection, i.e. the sender ends Connected, not
Disconnected. -/
theorem write_c1_counterexample :
    (write (fun _ => true) (fun _ => false) false).err = some WriteError.sendFailed ∧
    (write (fun _ => true) (fun _ => false) false).connected = true := by
  constructor <;> rfl

/-- C1 (amended): from Disconnected, when both connects succeed: if the
first transmit fails and the retried transmit succeeds, `write` returns
success and ends Connected; if both transmits fail, `write` returns the
send failure and ends Connected (it keeps the newly established
connection rather than returning to Disconnected). -/
theorem write_c1_reconnect (connectOk transmitOk : Nat → Bool)
    (h0 : connectOk 0 = true) (h1 : connectOk 1 = true) :
    (transmitOk 0 = false → transmitOk 1 = true →
      write connectOk transmitOk false =
        { err := none, connected := true, connectAttempts := 2, transmitAttempts := 2 }) ∧
    (transmitOk 0 = false → transmitOk 1 = false →
      write connectOk transmitOk false =
        { err := some .sendFailed, connected := true, connectAttempts := 2,
          transmitAttempts := 2 }) := by
  constructor <;> intro ht0 ht1 <;>
    simp [write, writeTransmit, h0, h1, ht0, ht1]

theorem write_c1_reconnect_witness :
    write (fun _ => true) (fun i => decide (i = 1)) false =
      { err := none, connected := true, connectAttempts := 2, transmitAttempts := 2 } :=
  (write_c1_reconnect (fun _ => true) (fun i => decide (i = 1)) rfl rfl).1 rfl rfl

/-- C6: every single `write` call issues at most two connection
attempts and at most two transmit attempts, whatever the starting
state and the outcomes. -/
theorem write_c6_attempt_bound (connectOk transmitOk : Nat → Bool) (connected0 : Bool) :
    (write connectOk transmitOk connected0).connectAttempts ≤ 2 ∧
    (write connectOk transmitOk connected0).transmitAttempts ≤ 2 := by
  cases connected0 <;>
    simp only [write, writeTransmit] <;>
    (repeat' split) <;> exact ⟨by decide, by decide⟩

/-! ## Claims about construction and stop -/

/-- C7: a connect string whose scheme is neither tcp nor udp is
rejected at construction with a configuration error (and construction
never consults the connect oracle — `NewHekaClient` takes none — so no
connection attempt is made); schemes tcp and udp are not rejected, and
the constructed client starts Disconnected with an open stop channel. -/
theorem newHekaClient_c7_scheme (scheme host msgtype : String)
    (h : scheme ≠ "tcp" ∧ scheme ≠ "udp") :
    (∃ e, NewHekaClient scheme host msgtype = .error e) ∧
    (∀ h2 t2, NewHekaClient "tcp" h2 t2 =
      .ok { scheme := "tcp", host := h2, msgtype := t2,
            connected := false, stopClosed := false }) ∧
    (∀ h2 t2, NewHekaClient "udp" h2 t2 =
      .ok { scheme := "udp", host := h2, msgtype := t2,
            connected := false, stopClosed := false }) := by
  refine ⟨⟨"scheme: " ++ scheme ++
      " not supported, try tcp://<host>:<port> or udp://<host>:<port>", ?_⟩,
    fun h2 t2 => rfl, fun h2 t2 => rfl⟩
  simp [NewHekaClient, h.1, h.2]

theorem newHekaClient_c7_scheme_witness :
    ∃ e, NewHekaClient "http" "host:1" "t" = .error e :=
  (newHekaClient_c7_scheme "http" "host:1" "t" (by simp)).1

/-- C10: `Stop` is single-use.  On a client whose stop channel is still
open (every freshly constructed client, whatever the loop has done,
since the loop never closes the channel), `Stop` closes the channel and
returns normally; on a client whose channel is already closed — i.e.
after a first `Stop` — a second `Stop` panics, because `close` on a
closed Go channel panics. -/
theorem stop_c10_single_use (hc : HekaClient) :
    (hc.stopClosed = false → Stop hc = .normal { hc with stopClosed := true }) ∧
    (hc.stopClosed = true → Stop hc = .panicked) := by
  constructor <;> intro h <;> simp [Stop, h]

theorem stop_c10_single_use_witness :
    Stop { scheme := "tcp", host := "h", msgtype := "t",
           connected := false, stopClosed := true } = .panicked :=
  (stop_c10_single_use _).2 rfl

/-! ## Claims about the flush loop -/

/-- C2, as stated by the spec, is false on the code: when the stop
signal arrives before the first interval elapses (the run's first
select outcome is `stopSignal`), the loop still executes one full flush
body — `make_message`, the encode step and a `write` call — after
observing the stop, and only then exits.  The claim demands that no
flush occur. -/
theorem logheka_c2_counterexample :
    logHekaCycles (fun _ => true) [LoopEvent.stopSignal] 0 =
      [{ encodeOk := true, sendAttempted := true }] ∧
    logHekaCycles (fun _ => true) [LoopEvent.stopSignal] 0 ≠ [] := by
  constructor
  · rfl
  · intro h
    simp [logHekaCycles] at h

/-- C2 (amended): if the stop signal is delivered before the first
interval elapses, the loop performs exactly one flush — the flush body
(encode and send attempt) runs once, after the stop signal is observed
— and then exits; nothing after that single cycle runs, whatever
select outcomes would have followed. -/
theorem logheka_c2_stop_flush (encOk : Nat → Bool) (rest : List LoopEvent) :
    logHekaCycles encOk (LoopEvent.stopSignal :: rest) 0 =
      [{ encodeOk := encOk 0, sendAttempted := true }] := by
  rfl

/-- C3: the code evaluated at a cycle whose encode step fails.  The
spec says such a cycle aborts its send; the code only logs the encode
error and still calls `hc.write(stream)` with the buffer left over
from the previous cycle, so `sendAttempted` is `true` in the failing
cycle (cycle 0 here, followed by a normal stop). -/
theorem logheka_c3_encode_error_still_sends :
    logHekaCycles (fun _ => false) [LoopEvent.tick, LoopEvent.stopSignal] 0 =
      [{ encodeOk := false, sendAttempted := true },
       { encodeOk := false, sendAttempted := true }] := by
  rfl

/-! ## Claims about the encoder -/

/-- C8: when the float value list is shorter than the name list, the
flattening step pairs each name that has a value at its index with that
value and silently skips the rest: the result is exactly the positional
zip of names and values (so no unmatched name produces a field, every
matched name does, and the mismatch never aborts the remaining fields
— the function still returns all `vals.length` matched fields). -/
theorem add_float_mapping_c8_skip (pref : String) (names : List String) (vals : List Rat)
    (h : vals.length < names.length) :
    add_float_mapping pref names vals =
      (names.zip vals).map
        (fun p => { name := pref ++ "." ++ p.1, value := FieldValue.f p.2 }) ∧
    (add_float_mapping pref names vals).length = vals.length := by
  refine ⟨add_float_mapping_eq_zip pref names vals, ?_⟩
  rw [add_float_mapping_eq_zip pref names vals]
  simp [Nat.min_eq_right (Nat.le_of_lt h)]

theorem add_float_mapping_c8_skip_witness :
    add_float_mapping "x" ["a", "b", "c"] [1, 2] =
      (["a", "b", "c"].zip [(1 : Rat), 2]).map
        (fun p => { name := "x" ++ "." ++ p.1, value := FieldValue.f p.2 }) ∧
    (add_float_mapping "x" ["a", "b", "c"] [1, 2]).length = 2 :=
  add_float_mapping_c8_skip "x" ["a", "b", "c"] [1, 2] (by decide)

/-- C5: a Counter emits exactly the single int64 field `name ↦ count`,
a Gauge exactly the single int64 field `name ↦ value`, and a
GaugeFloat64 exactly the single float64 field `name ↦ value` — the
value kept in its own numeric representation; and the end-to-end
registry {Counter requests = 42, GaugeFloat cpu.load = 0.73} encodes to
exactly the fields [requests ↦ int64 42, cpu.load ↦ float64 0.73]. -/
theorem make_message_c5_counter_gauge :
    (∀ (n : String) (c : Int),
      metricFields n (.counter c) = [{ name := n, value := .i c }]) ∧
    (∀ (n : String) (v : Int),
      metricFields n (.gauge v) = [{ name := n, value := .i v }]) ∧
    (∀ (n : String) (v : Rat),
      metricFields n (.gaugeFloat64 v) = [{ name := n, value := .f v }]) ∧
    make_message [("requests", .counter 42), ("cpu.load", .gaugeFloat64 0.73)] =
      [{ name := "requests", value := .i 42 },
       { name := "cpu.load", value := .f 0.73 }] :=
  ⟨fun _ _ => rfl, fun _ _ => rfl, fun _ _ => rfl, rfl⟩

/-- C4: for a Histogram `n` whose snapshot answers the canonical
(ascending) percentile request with five values, the emitted float64
fields are exactly `n.histogram.{50,75,95,99,999}-percentile`,
`n.histogram.mean`, `n.histogram.std-dev`, in that order, positionally
paired with the five quantiles then mean then standard deviation, and
the int64 fields `n.histogram.{count,min,max}` follow; the same holds
for a Timer with prefix `n.timer.`, the extra float64 fields
`one-minute, five-minute, fifteen-minute, mean-rate` paired with
rate1, rate5, rate15, rateMean; and the percentile request list itself
is strictly ascending. -/
theorem make_message_c4_hist_timer_fields (n : String)
    (h : HistogramSnapshot) (t : TimerSnapshot)
    (p50 p75 p95 p99 p999 q50 q75 q95 q99 q999 : Rat)
    (hh : h.percentiles canonicalPercentiles = [p50, p75, p95, p99, p999])
    (ht : t.percentiles canonicalPercentiles = [q50, q75, q95, q99, q999]) :
    canonicalPercentiles.Pairwise (· < ·) ∧
    metricFields n (.histogram h) =
      [{ name := n ++ ".histogram.50-percentile", value := .f p50 },
       { name := n ++ ".histogram.75-percentile", value := .f p75 },
       { name := n ++ ".histogram.95-percentile", value := .f p95 },
       { name := n ++ ".histogram.99-percentile", value := .f p99 },
       { name := n ++ ".histogram.999-percentile", value := .f p999 },
       { name := n ++ ".histogram.mean", value := .f h.mean },
       { name := n ++ ".histogram.std-dev", value := .f h.stdDev },
       { name := n ++ ".histogram.count", value := .i h.count },
       { name := n ++ ".histogram.min", value := .i h.min },
       { name := n ++ ".histogram.max", value := .i h.max }] ∧
    metricFields n (.timer t) =
      [{ name := n ++ ".timer.50-percentile", value := .f q50 },
       { name := n ++ ".timer.75-percentile", value := .f q75 },
       { name := n ++ ".timer.95-percentile", value := .f q95 },
       { name := n ++ ".timer.99-percentile", value := .f q99 },
       { name := n ++ ".timer.999-percentile", value := .f q999 },
       { name := n ++ ".timer.mean", value := .f t.mean },
       { name := n ++ ".timer.std-dev", value := .f t.stdDev },
       { name := n ++ ".timer.one-minute", value := .f t.rate1 },
       { name := n ++ ".timer.five-minute", value := .f t.rate5 },
       { name := n ++ ".timer.fifteen-minute", value := .f t.rate15 },
       { name := n ++ ".timer.mean-rate", value := .f t.rateMean },
       { name := n ++ ".timer.count", value := .i t.count },
       { name := n ++ ".timer.min", value := .i t.min },
       { name := n ++ ".timer.max", value := .i t.max }] := by
  refine ⟨by norm_num [canonicalPercentiles], ?_, ?_⟩ <;>
    simp only [metricFields, add_float_mapping, add_float_mapping_from, hh, ht,
      histogramFloatNames, timerFloatNames, List.length_append, List.length_cons,
      List.length_nil, List.cons_append, List.nil_append, List.getD_cons_zero,
      List.getD_cons_succ, List.zip_cons_cons, List.zip_nil_right, List.map_cons,
      List.map_nil, String.append_assoc] <;>
    norm_num <;>
    (repeat' apply And.intro) <;>
    exact congrArg (n ++ ·) rfl

theorem make_message_c4_witness :
    metricFields "x"
        (.histogram { count := 10, min := 1, max := 100, mean := 50, stdDev := 20,
                      percentiles := fun _ => [1, 2, 3, 4, 5] }) =
      [{ name := "x" ++ ".histogram.50-percentile", value := .f 1 },
       { name := "x" ++ ".histogram.75-percentile", value := .f 2 },
       { name := "x" ++ ".histogram.95-percentile", value := .f 3 },
       { name := "x" ++ ".histogram.99-percentile", value := .f 4 },
       { name := "x" ++ ".histogram.999-percentile", value := .f 5 },
       { name := "x" ++ ".histogram.mean", value := .f 50 },
       { name := "x" ++ ".histogram.std-dev", value := .f 20 },
       { name := "x" ++ ".histogram.count", value := .i 10 },
       { name := "x" ++ ".histogram.min", value := .i 1 },
       { name := "x" ++ ".histogram.max", value := .i 100 }] :=
  (make_message_c4_hist_timer_fields "x"
    { count := 10, min := 1, max := 100, mean := 50, stdDev := 20,
      percentiles := fun _ => [1, 2, 3, 4, 5] }
    { count := 10, min := 1, max := 100, mean := 50, stdDev := 20,
      rate1 := 2, rate5 := 3, rate15 := 4, rateMean := 5,
      percentiles := fun _ => [1, 2, 3, 4, 5] }
    1 2 3 4 5 1 2 3 4 5 rfl rfl).2.1

/-! ## Field-name uniqueness -/

theorem zip_map_fst_sublist {α β γ : Type} (g : α → γ) (ns : List α) (vs : List β) :
    ((ns.zip vs).map (fun q => g q.1)).Sublist (ns.map g) := by
  induction ns generalizing vs with
  | nil => simp
  | cons n ns ih =>
    cases vs with
    | nil => simp
    | cons v vs =>
      simp only [List.zip_cons_cons, List.map_cons]
      exact List.Sublist.cons₂ (g n) (ih vs)

theorem string_append_left_injective (n : String) :
    Function.Injective (fun s => n ++ s) := by
  intro a b hab
  apply String.ext
  have h2 := congrArg String.data hab
  simp only [String.data_append] at h2
  exact List.append_cancel_left h2

theorem map_merge (n a : String) (names : List String) :
    names.map (fun s => (n ++ a) ++ s) =
      (names.map (fun s => a ++ s)).map (fun s => n ++ s) := by
  rw [List.map_map]
  refine List.map_congr_left (fun s _ => ?_)
  simp only [Function.comp_apply, String.append_assoc]

theorem map_merge2 (n a b : String) (names : List String) :
    names.map (fun s => ((n ++ a) ++ b) ++ s) =
      (names.map (fun s => (a ++ b) ++ s)).map (fun s => n ++ s) := by
  rw [List.map_map]
  refine List.map_congr_left (fun s _ => ?_)
  simp only [Function.comp_apply, String.append_assoc]

/-- Every field emitted for one registry entry is named by the entry's
name followed by one of the kind's canonical suffixes, in canonical
order (a sublist, since quantile names without a value are skipped). -/
theorem metricFieldNames_sublist (n : String) (m : Metric) :
    ((metricFields n m).map Field.name).Sublist
      ((metricSuffixes m).map (fun s => n ++ s)) := by
  cases m with
  | counter c =>
      simp only [metricFields, metricSuffixes, List.map_cons, List.map_nil]
      rw [String.append_empty]
  | gauge v =>
      simp only [metricFields, metricSuffixes, List.map_cons, List.map_nil]
      rw [String.append_empty]
  | gaugeFloat64 v =>
      simp only [metricFields, metricSuffixes, List.map_cons, List.map_nil]
      rw [String.append_empty]
  | meter mt =>
      simp only [metricFields, metricSuffixes, meterSuffixes, List.map_cons,
        List.map_nil, add_float_mapping_eq_zip, List.map_map]
      refine List.Sublist.cons₂ _ ?_
      refine List.Sublist.trans
        (zip_map_fst_sublist (fun s => n ++ "." ++ s) meterFloatNames _) ?_
      rw [map_merge n "." meterFloatNames]
      have hclosed : meterFloatNames.map (fun s => "." ++ s) =
          [".one-minute", ".five-minute", ".fifteen-minute", ".mean"] := by decide
      rw [hclosed]
      exact List.Sublist.refl _
  | histogram h =>
      simp only [metricFields, metricSuffixes, List.map_append,
        add_float_mapping_eq_zip, List.map_map]
      refine List.Sublist.append ?_ ?_
      · refine List.Sublist.trans
          (zip_map_fst_sublist (fun s => (n ++ ".histogram") ++ "." ++ s)
            histogramFloatNames _) ?_
        rw [map_merge2 n ".histogram" "." histogramFloatNames]
        have hclosed : histogramFloatNames.map (fun s => (".histogram" ++ ".") ++ s) =
            histFloatSuffixes := by decide
        rw [hclosed]
      · have hint : (["count", "min", "max"].zip [h.count, h.min, h.max]).map
            (Field.name ∘ fun p => Field.mk (n ++ ".histogram." ++ p.1) (FieldValue.i p.2)) =
              histIntSuffixes.map (fun s => n ++ s) := by
          simp only [List.zip_cons_cons, List.zip_nil_left, List.map_cons, List.map_nil,
            Function.comp_apply, histIntSuffixes, String.append_assoc, List.cons.injEq,
            and_true]
          exact ⟨congrArg (n ++ ·) rfl, congrArg (n ++ ·) rfl, congrArg (n ++ ·) rfl⟩
        rw [hint]
  | timer t =>
      simp only [metricFields, metricSuffixes, List.map_append,
        add_float_mapping_eq_zip, List.map_map]
      refine List.Sublist.append ?_ ?_
      · refine List.Sublist.trans
          (zip_map_fst_sublist (fun s => (n ++ ".timer") ++ "." ++ s)
            timerFloatNames _) ?_
        rw [map_merge2 n ".timer" "." timerFloatNames]
        have hclosed : timerFloatNames.map (fun s => (".timer" ++ ".") ++ s) =
            timerFloatSuffixes := by decide
        rw [hclosed]
      · have hint : (["count", "min", "max"].zip [t.count, t.min, t.max]).map
            (Field.name ∘ fun p => Field.mk (n ++ ".timer." ++ p.1) (FieldValue.i p.2)) =
              timerIntSuffixes.map (fun s => n ++ s) := by
          simp only [List.zip_cons_cons, List.zip_nil_left, List.map_cons, List.map_nil,
            Function.comp_apply, timerIntSuffixes, String.append_assoc, List.cons.injEq,
            and_true]
          exact ⟨congrArg (n ++ ·) rfl, congrArg (n ++ ·) rfl, congrArg (n ++ ·) rfl⟩
        rw [hint]

theorem metricSuffixes_nodup (m : Metric) : (metricSuffixes m).Nodup := by
  cases m <;> simp only [metricSuffixes] <;> decide

/-- Canonical name sets of two entries are disjoint as soon as neither
entry's name is a character-level prefix of the other. -/
theorem metricNames_disjoint (n1 n2 : String) (m1 m2 : Metric)
    (h1 : ¬ n1.data <+: n2.data) (h2 : ¬ n2.data <+: n1.data) :
    List.Disjoint ((metricSuffixes m1).map (fun s => n1 ++ s))
      ((metricSuffixes m2).map (fun s => n2 ++ s)) := by
  intro a ha hb
  obtain ⟨s1, _, rfl⟩ := List.mem_map.1 ha
  obtain ⟨s2, _, he⟩ := List.mem_map.1 hb
  have hd := congrArg String.data he
  simp only [String.data_append] at hd
  rcases List.append_eq_append_iff.1 hd with ⟨a', hA, _⟩ | ⟨c', hC, _⟩
  · exact h2 ⟨a', hA.symm⟩
  · exact h1 ⟨c', hC.symm⟩

/-- C9, as stated by the spec, is false on the code: the registry with
the Counter `a.count` and the Meter `a` has distinct metric names, yet
the encoded message carries the field name `a.count` twice — once from
the Counter and once as the Meter's count field. -/
theorem make_message_c9_counterexample :
    [("a.count", Metric.counter 1),
     ("a", Metric.meter { count := 1, rate1 := 2, rate5 := 3, rate15 := 4,
                          rateMean := 5 })].Pairwise (fun a b => a.1 ≠ b.1) ∧
    ¬ ((make_message
        [("a.count", Metric.counter 1),
         ("a", Metric.meter { count := 1, rate1 := 2, rate5 := 3, rate15 := 4,
                              rateMean := 5 })]).map Field.name).Nodup := by
  constructor
  · refine List.Pairwise.cons (fun b hb => ?_) (List.pairwise_singleton _ _)
    rw [List.mem_singleton] at hb
    subst hb
    decide
  · decide

/-- C9 (amended): for every registry whose metric names are distinct
and in which, moreover, no metric name is a character-level prefix of
another metric name, every numeric field name in the encoded message is
unique — no two emitted fields share a name, across all metric kinds
and their derived dotted names.  (The extra prefix-freeness condition
is forced by the counterexample: a metric name that extends another
metric's name can collide with the latter's derived dotted names, e.g.
Counter `a.count` next to Meter `a`.) -/
theorem make_message_c9_nodup (r : List (String × Metric))
    (h : r.Pairwise (fun a b => ¬ a.1.data <+: b.1.data ∧ ¬ b.1.data <+: a.1.data)) :
    ((make_message r).map Field.name).Nodup := by
  rw [make_message, List.map_flatMap]
  have hfm : (r.flatMap fun p => (metricFields p.1 p.2).map Field.name) =
      (r.map fun p => (metricFields p.1 p.2).map Field.name).flatten := rfl
  rw [hfm, List.nodup_flatten]
  constructor
  · intro l' hl'
    obtain ⟨p, _, rfl⟩ := List.mem_map.1 hl'
    exact ((metricSuffixes_nodup p.2).map (string_append_left_injective p.1)).sublist
      (metricFieldNames_sublist p.1 p.2)
  · rw [List.pairwise_map]
    refine h.imp ?_
    intro a b hab
    exact fun x hx1 hx2 =>
      metricNames_disjoint a.1 b.1 a.2 b.2 hab.1 hab.2
        ((metricFieldNames_sublist a.1 a.2).subset hx1)
        ((metricFieldNames_sublist b.1 b.2).subset hx2)

theorem make_message_c9_nodup_witness :
    ((make_message
        [("a", Metric.counter 1),
         ("b", Metric.meter { count := 1, rate1 := 2, rate5 := 3, rate15 := 4,
                              rateMean := 5 })]).map Field.name).Nodup :=
  make_message_c9_nodup _
    (by
      refine List.Pairwise.cons (fun b hb => ?_) (List.pairwise_singleton _ _)
      rw [List.mem_singleton] at hb
      subst hb
      exact ⟨by decide, by decide⟩)

end Hekametrics
